import Mathlib

/-!
Verification of the extraction-and-diff engine of `kidconnect-ifttt`
(`src/main.py`, `src/config.py`) against its natural-language specification.

The Python code is shallowly embedded: pure helpers become Lean functions on
`List Char` / `String` / `Nat`, the snapshot file becomes an explicit
`Option`-typed state, and Python exceptions become `Except` values.  Machine
words inside SHA-1 are `Nat` reduced modulo `2 ^ 32`.
-/

namespace KC

/-! ### Python `str.replace`

`s.replace(old, new)` replaces every non-overlapping occurrence of `old`
in `s`, scanning left to right.  We model strings as `List Char` and use a
fuel parameter (one unit per consumed character) so the function is
structurally recursive and kernel-evaluable.  The wrapper passes fuel equal
to the length of the string, which is always sufficient because every step
consumes at least one character.  All patterns used in the program are
non-empty; for an empty pattern the wrapper returns the string unchanged
(the program never calls it that way). -/

/-- Boolean test that `p` is a prefix of `s` (the substring-match test that
`str.replace` performs at each scan position). -/
def isPref : List Char → List Char → Bool
  | [], _ => true
  | _ :: _, [] => false
  | p :: ps, c :: cs => p == c && isPref ps cs

/-- One scan of `str.replace`: at each position, if the pattern matches,
emit the replacement and skip over the pattern, otherwise keep the current
character.  `fuel` bounds the number of steps. -/
def replaceAux (pat rep : List Char) : Nat → List Char → List Char
  | 0, s => s
  | _ + 1, [] => []
  | fuel + 1, c :: cs =>
    if isPref pat (c :: cs) then
      rep ++ replaceAux pat rep fuel ((c :: cs).drop pat.length)
    else
      c :: replaceAux pat rep fuel cs

/-- Python `s.replace(pat, rep)` for a non-empty pattern. -/
def pyReplace (s pat rep : List Char) : List Char :=
  if pat.isEmpty then s else replaceAux pat rep s.length s

/-- Embedding of `nl2br` (src/main.py:20-21):
`s.replace('\r\n', '<br />').replace('\n', '<br />').replace('<br />', '<br />\n')`. -/
def nl2br (s : List Char) : List Char :=
  pyReplace (pyReplace (pyReplace s "\r\n".data "<br />".data) "\n".data "<br />".data)
    "<br />".data "<br />\n".data

/-! ### Records and the diff engine

A parsed record is a Python dict.  Every record kind built by the program
(news, event, message) carries a string `id` and a string `date`; the
remaining string-valued fields are kept as an association list in their
Python insertion order, and the news-only `attachments` value is a list of
URLs (empty for the other kinds). -/

/-- A normalized record (a Python dict produced by the parsers). -/
structure Record where
  id : String
  date : String
  fields : List (String × String)
  attachments : List String
deriving DecidableEq

/-- Embedding of `new_items` (src/main.py:198-200): build the set of ids
present in `history`, then keep the records of `current` whose id is not in
that set.  Membership in a Python set of strings coincides with list
membership of the collected ids. -/
def new_items (current history : List Record) : List Record :=
  current.filter (fun c => !((history.map Record.id).contains c.id))

/-! ### The snapshot store (`HistoryManager`, src/main.py:181-195)

The file at `self._path` is modeled as `Option (List (String × List β))`:
`none` when no file exists (Python raises `FileNotFoundError` on open), and
otherwise the parsed top-level JSON object, an association list with
distinct keys (files written by `store` never contain duplicate keys).  A
`load` result element is `none` for Python `None` (a key absent from an
existing file) and `some l` for a JSON array. -/

/-- Embedding of `HistoryManager.load` (src/main.py:185-191): with an
existing file, return `[cnt.get(a) for a in args]`; when the file is
missing, return `[[] for a in args]`. -/
def load {β : Type} (file : Option (List (String × List β))) (args : List String) :
    List (Option (List β)) :=
  match file with
  | some cnt => args.map (fun a => cnt.lookup a)
  | none => args.map (fun _ => some [])

/-- Embedding of `HistoryManager.store` (src/main.py:193-195): the file
afterwards holds exactly the keyword dict that was passed in. -/
def store {β : Type} (kwargs : List (String × List β)) : Option (List (String × List β)) :=
  some kwargs

/-! ### Identity assignment (`stable_id`, src/main.py:24-25)

`stable_id(d)` is `sha1(json.dumps(d, sort_keys=True).encode('utf-8')).hexdigest()`.
The dicts hashed by the program (events, messages) map string keys to string
values, so `d` is embedded as `List (String × String)` in insertion order.
`json.dumps` is modeled with its default options (`ensure_ascii=True`,
separators `', '` and `': '`, `sort_keys=True`), and SHA-1 is implemented
directly from FIPS 180 on `Nat` words reduced modulo `2 ^ 32`. -/

/-- Truncation to a 32-bit word. -/
def w32 (n : Nat) : Nat := n % 4294967296

/-- Left rotation of a 32-bit word by `b` bits. -/
def rotl (b n : Nat) : Nat := w32 ((n <<< b) ||| (n >>> (32 - b)))

/-- The SHA-1 round constants. -/
def sha1K (t : Nat) : Nat :=
  if t < 20 then 1518500249
  else if t < 40 then 1859775393
  else if t < 60 then 2400959708
  else 3395469782

/-- The SHA-1 round functions. -/
def sha1F (t b c d : Nat) : Nat :=
  if t < 20 then (b &&& c) ||| ((b ^^^ 4294967295) &&& d)
  else if t < 40 then b ^^^ c ^^^ d
  else if t < 60 then (b &&& c) ||| (b &&& d) ||| (c &&& d)
  else b ^^^ c ^^^ d

/-- The five 32-bit state words of SHA-1. -/
structure Sha1State where
  a : Nat
  b : Nat
  c : Nat
  d : Nat
  e : Nat
deriving DecidableEq

/-- Big-endian byte rendering of a number, `k` bytes wide. -/
def natToBytesBE : Nat → Nat → List Nat
  | 0, _ => []
  | k + 1, n => natToBytesBE k (n / 256) ++ [n % 256]

/-- SHA-1 message padding: append `0x80`, zero bytes up to 56 mod 64, then
the bit length as 8 big-endian bytes. -/
def sha1Pad (msg : List Nat) : List Nat :=
  msg ++ 128 :: List.replicate ((64 + 56 - (msg.length + 1) % 64) % 64) 0 ++
    natToBytesBE 8 (msg.length * 8)

/-- Group bytes into big-endian 32-bit words. -/
def bytesToWords : List Nat → List Nat
  | b0 :: b1 :: b2 :: b3 :: rest =>
    (((b0 * 256 + b1) * 256 + b2) * 256 + b3) :: bytesToWords rest
  | _ => []

/-- Extend the 16 chunk words by `n` further schedule words. -/
def extendWords : List Nat → Nat → List Nat
  | w, 0 => w
  | w, n + 1 =>
    extendWords (w ++ [rotl 1 (w.getD (w.length - 3) 0 ^^^ w.getD (w.length - 8) 0 ^^^
      w.getD (w.length - 14) 0 ^^^ w.getD (w.length - 16) 0)]) n

/-- One SHA-1 round on the working state. -/
def sha1Round (ws : List Nat) (s : Sha1State) (t : Nat) : Sha1State :=
  ⟨w32 (rotl 5 s.a + sha1F t s.b s.c s.d + s.e + sha1K t + ws.getD t 0),
   s.a, rotl 30 s.b, s.c, s.d⟩

/-- The word-wise modular addition of the chunk result onto the running
state. -/
def addStates (x y : Sha1State) : Sha1State :=
  ⟨w32 (x.a + y.a), w32 (x.b + y.b), w32 (x.c + y.c), w32 (x.d + y.d), w32 (x.e + y.e)⟩

/-- Process one 64-byte chunk. -/
def sha1Chunk (hs : Sha1State) (chunk : List Nat) : Sha1State :=
  addStates hs ((List.range 80).foldl (sha1Round (extendWords (bytesToWords chunk) 64)) hs)

/-- The SHA-1 initialization vector. -/
def sha1Init : Sha1State := ⟨1732584193, 4023233417, 2562383102, 271733878, 3285377520⟩

/-- Split a byte string whose length is a multiple of 64 into chunks. -/
def chunks64 (l : List Nat) : List (List Nat) :=
  (List.range (l.length / 64)).map (fun i => (l.drop (64 * i)).take 64)

/-- The SHA-1 digest of a byte string, as the 160-bit number
`h0 || h1 || h2 || h3 || h4`. -/
def sha1Nat (msg : List Nat) : Nat :=
  let s := (chunks64 (sha1Pad msg)).foldl sha1Chunk sha1Init
  (((s.a * 4294967296 + s.b) * 4294967296 + s.c) * 4294967296 + s.d) * 4294967296 + s.e

/-- The lowercase hex digit for a value below 16. -/
def hexDigitChar (n : Nat) : Char :=
  if n < 10 then Char.ofNat (48 + n) else Char.ofNat (87 + n)

/-- Fixed-width lowercase hex rendering, `k` digits. -/
def natToHexFixed : Nat → Nat → List Char
  | 0, _ => []
  | k + 1, n => natToHexFixed k (n / 16) ++ [hexDigitChar (n % 16)]

/-- JSON escaping of one character, as `json.dumps` does with its default
`ensure_ascii=True`: the two-character escapes for quote, backslash and the
common control characters, `\uXXXX` for every other character outside
`0x20..0x7e`, with a surrogate pair above `0xffff`. -/
def jsonEscapeChar (c : Char) : List Char :=
  if c = '"' then ['\\', '"']
  else if c = '\\' then ['\\', '\\']
  else if c = '\n' then ['\\', 'n']
  else if c = '\r' then ['\\', 'r']
  else if c = '\t' then ['\\', 't']
  else if c.toNat = 8 then ['\\', 'b']
  else if c.toNat = 12 then ['\\', 'f']
  else if 32 ≤ c.toNat ∧ c.toNat ≤ 126 then [c]
  else if c.toNat < 65536 then '\\' :: 'u' :: natToHexFixed 4 c.toNat
  else
    ('\\' :: 'u' :: natToHexFixed 4 (55296 + (c.toNat - 65536) / 1024)) ++
      ('\\' :: 'u' :: natToHexFixed 4 (56320 + (c.toNat - 65536) % 1024))

/-- A JSON string literal. -/
def jsonQuote (s : String) : List Char :=
  '"' :: (s.data.flatMap jsonEscapeChar) ++ ['"']

/-- One `"key": "value"` member. -/
def jsonItem (kv : String × String) : List Char :=
  jsonQuote kv.1 ++ ':' :: ' ' :: jsonQuote kv.2

/-- The `sort_keys=True` ordering: Python sorts the dict items by key, and
Python string comparison is lexicographic on code points, which is exactly
the order of the Mathlib `LinearOrder` on `String`. -/
def sortByKey (d : List (String × String)) : List (String × String) :=
  d.mergeSort (fun p q => decide (p.1 ≤ q.1))

/-- Embedding of `json.dumps(d, sort_keys=True)` for a string-valued dict:
a brace-delimited object with `', '` between members. -/
def jsonDumpsSorted (d : List (String × String)) : List Char :=
  Char.ofNat 123 :: (List.intercalate [',', ' '] ((sortByKey d).map jsonItem) ++ [Char.ofNat 125])

/-- UTF-8 encoding of one character (`str.encode('utf-8')`). -/
def utf8Char (c : Char) : List Nat :=
  let n := c.toNat
  if n < 128 then [n]
  else if n < 2048 then [192 + n / 64, 128 + n % 64]
  else if n < 65536 then [224 + n / 4096, 128 + (n / 64) % 64, 128 + n % 64]
  else [240 + n / 262144, 128 + (n / 4096) % 64, 128 + (n / 64) % 64, 128 + n % 64]

/-- UTF-8 encoding of a string. -/
def utf8Encode (s : List Char) : List Nat := s.flatMap utf8Char

/-- Embedding of `stable_id` (src/main.py:24-25):
`sha1(json.dumps(d, sort_keys=True).encode('utf-8')).hexdigest()`. -/
def stable_id (d : List (String × String)) : String :=
  String.mk (natToHexFixed 40 (sha1Nat (utf8Encode (jsonDumpsSorted d))))

/-! ### News parsing (`KidConnect._parse_news`, src/main.py:78-99)

A news fragment (one `div.aktualnosc`) is abstracted to what the selectors
of `_parse_news` can observe.  A field is `none` when the attribute or
element is absent; in Python the subscript then raises `KeyError` and a
`find(...)` returns `None`, so the chained `.get_text()` raises
`AttributeError`.  Element values carry the already-extracted `get_text()`
result, and `newsAttachments` is `none` when the attachments container is
absent, otherwise the list of link targets (the `if attachments:` branch of
src/main.py:93-97 also treats an empty container like an absent one, which
`some []` models the same way). -/

/-- Python `str.strip()`: remove leading and trailing whitespace. -/
def stripChars (s : List Char) : List Char :=
  ((s.dropWhile Char.isWhitespace).reverse.dropWhile Char.isWhitespace).reverse

/-- The Python exceptions the parsing stage can raise. -/
inductive PyError where
  | keyError (key : String)
  | attributeError (attr : String)
  | valueError (msg : String)
deriving DecidableEq

/-- One `div.aktualnosc` fragment, as seen through the selectors. -/
structure NewsFragment where
  dataAktualnoscid : Option String
  tytulNowosci : Option String
  small : Option String
  trescAktualnosci : Option String
  newsAttachments : Option (List String)
deriving DecidableEq

/-- The search `_date_re.search(header)` for the pattern `Data: ([^,]+)`
(src/main.py:78, 88): find the leftmost position where the literal
`Data: ` is followed by at least one non-comma character and capture the
maximal run of non-comma characters; `none` models a failed search (whose
`.group(1)` then raises `AttributeError`). -/
def findDataCapture : List Char → Option (List Char)
  | [] => none
  | c :: cs =>
    if isPref "Data: ".data (c :: cs) then
      let cap := ((c :: cs).drop 6).takeWhile (fun ch => ch != ',')
      if cap.isEmpty then findDataCapture cs else some cap
    else findDataCapture cs

/-- Value of a digit string. -/
def digitsVal (ds : List Char) : Nat :=
  ds.foldl (fun a c => a * 10 + (c.toNat - 48)) 0

/-- Consume at most `maxD` leading digits, as the numeric `strptime`
directives do; `none` when no digit is present. -/
def takeNum (maxD : Nat) (s : List Char) : Option (Nat × List Char) :=
  let ds := (s.takeWhile Char.isDigit).take maxD
  if ds.isEmpty then none else some (digitsVal ds, s.drop ds.length)

/-- Consume one expected literal character. -/
def expectChar (c : Char) : List Char → Option (List Char)
  | [] => none
  | x :: xs => if x = c then some xs else none

/-- Model of `datetime.strptime(s, '%d.%m.%Y %H:%M')` (src/main.py:89) at
the granularity the claims need: day, month, 4-digit year, 24-hour time,
with the whole string consumed and the field ranges checked; `none` models
the `ValueError`.  (Month-specific day limits are not modeled.) -/
def strptimeDmyHm (s : List Char) : Option (Nat × Nat × Nat × Nat × Nat) := do
  let (d, s) ← takeNum 2 s
  let s ← expectChar '.' s
  let (mo, s) ← takeNum 2 s
  let s ← expectChar '.' s
  let (y, s) ← takeNum 4 s
  let s ← expectChar ' ' s
  let (h, s) ← takeNum 2 s
  let s ← expectChar ':' s
  let (mi, s) ← takeNum 2 s
  if s.isEmpty ∧ 1 ≤ d ∧ d ≤ 31 ∧ 1 ≤ mo ∧ mo ≤ 12 ∧ h ≤ 23 ∧ mi ≤ 59 then
    some (y, mo, d, h, mi)
  else none

/-- Fixed-width zero-padded decimal rendering. -/
def natToDecFixed : Nat → Nat → List Char
  | 0, _ => []
  | k + 1, n => natToDecFixed k (n / 10) ++ [Char.ofNat (48 + n % 10)]

/-- The `format` call of src/main.py:91: render the parsed date as the
normalized `yyyy-mm-dd hh:mm` string. -/
def formatDate (t : Nat × Nat × Nat × Nat × Nat) : List Char :=
  natToDecFixed 4 t.1 ++ '-' :: natToDecFixed 2 t.2.1 ++ '-' :: natToDecFixed 2 t.2.2.1 ++
    ' ' :: natToDecFixed 2 t.2.2.2.1 ++ ':' :: natToDecFixed 2 t.2.2.2.2

/-- Embedding of `_parse_news` (src/main.py:80-99).  The dict fields are
computed in source order (id, title, header, content, then the date is
extracted from the header, then attachments); the first missing mandatory
selector raises. -/
def parse_news (n : NewsFragment) : Except PyError Record := do
  let id ← match n.dataAktualnoscid with
    | some v => Except.ok v
    | none => Except.error (PyError.keyError "data-aktualnoscid")
  let title ← match n.tytulNowosci with
    | some t => Except.ok (stripChars t.data)
    | none => Except.error (PyError.attributeError "get_text")
  let header ← match n.small with
    | some t => Except.ok (stripChars t.data)
    | none => Except.error (PyError.attributeError "get_text")
  let content ← match n.trescAktualnosci with
    | some t => Except.ok (nl2br (stripChars t.data))
    | none => Except.error (PyError.attributeError "get_text")
  let dateText ← match findDataCapture header with
    | some t => Except.ok t
    | none => Except.error (PyError.attributeError "group")
  let date ← match strptimeDmyHm dateText with
    | some t => Except.ok (formatDate t)
    | none => Except.error (PyError.valueError "strptime")
  Except.ok
    { id := id, date := String.mk date,
      fields := [("title", String.mk title), ("header", String.mk header),
                 ("content", String.mk content)],
      attachments := n.newsAttachments.getD [] }

/-- The parsing stage of `_get_news` (src/main.py:76): the list
comprehension `[self._parse_news(n) for n in ...]` evaluates left to right
and the first exception aborts the whole page. -/
def parsePage : List NewsFragment → Except PyError (List Record)
  | [] => Except.ok []
  | n :: ns => do
    let r ← parse_news n
    let rs ← parsePage ns
    Except.ok (r :: rs)

/-! ### `get_news` ordering (src/main.py:59-67) -/

/-- The pagination loop of `get_news`: pages are fetched starting at 1 and
accumulated until the first empty page; `pages` is the sequence of per-page
record lists the site returns. -/
def collectNews (pages : List (List Record)) : List Record :=
  (pages.takeWhile (fun p => !p.isEmpty)).flatten

/-- Embedding of the return of `get_news`:
`sorted(all_news, key=lambda n: n['date'], reverse=True)`.  CPython sorts
stably and `reverse=True` yields the descending order with equal keys kept
in first-seen order, which is the stable `mergeSort` under the
greater-or-equal comparison on the date strings (Python compares strings
lexicographically by code point, as the Mathlib order on `String` does). -/
def get_news (pages : List (List Record)) : List Record :=
  (collectNews pages).mergeSort (fun a b => decide (b.date ≤ a.date))

/-! ### The run tail (src/main.py:203-253)

The main block loads the three collections, fetches, diffs, triggers the
notifier for each new record, and rewrites the snapshot only under the
guard of src/main.py:252.  The snapshot file is modeled as the parsed JSON
object with its three optional top-level keys (`none` when the whole file
is missing). -/

/-- The parsed snapshot file: the three top-level keys, each `none` when
absent from the JSON object.  The conversations value is a JSON object
keyed by the stringified conversation id. -/
structure SnapshotFile where
  news : Option (List Record)
  events : Option (List Record)
  conversations : Option (List (String × List Record))
deriving DecidableEq

/-- `hm.load('news', ...)` followed by the `or []` coercion of
src/main.py:213: a missing file loads as an empty list, and `None` (key
absent) coerces to empty. -/
def lastSeenNews (file : Option SnapshotFile) : List Record :=
  match file with
  | none => []
  | some f => f.news.getD []

/-- Same as `lastSeenNews` for the events collection (src/main.py:215). -/
def lastSeenEvents (file : Option SnapshotFile) : List Record :=
  match file with
  | none => []
  | some f => f.events.getD []

/-- Same for the conversations object, with `or` producing the empty dict
(src/main.py:218). -/
def lastSeenConversations (file : Option SnapshotFile) : List (String × List Record) :=
  match file with
  | none => []
  | some f => f.conversations.getD []

/-- `new_conversations` (src/main.py:217-220): for each fetched
conversation id, diff its messages against
`(last_seen_conversations or ...).get(str(id), [])`. -/
def newConversations (convs : List (Nat × List Record)) (file : Option SnapshotFile) :
    List (Nat × List Record) :=
  convs.map (fun p =>
    (p.1, new_items p.2 (((lastSeenConversations file).lookup (toString p.1)).getD [])))

/-- The guard of src/main.py:252:
`if new_news or new_events or any(new_conversations.values())`.  A Python
list is truthy exactly when it is non-empty. -/
def anyNew (newNews newEvents : List Record) (newConvs : List (Nat × List Record)) : Bool :=
  !newNews.isEmpty || !newEvents.isEmpty || newConvs.any (fun p => !p.2.isEmpty)

/-- The snapshot file state after the run (src/main.py:252-253): when the
guard holds, `hm.store(news=..., events=..., conversations=...)` rewrites
the file with the full fetched collections (the conversation dict keys
become JSON strings); otherwise the file is untouched. -/
def runFinalFile (file : Option SnapshotFile) (news events : List Record)
    (convs : List (Nat × List Record)) : Option SnapshotFile :=
  if anyNew (new_items news (lastSeenNews file)) (new_items events (lastSeenEvents file))
      (newConversations convs file) then
    some ⟨some news, some events, some (convs.map (fun p => (toString p.1, p.2)))⟩
  else
    file

/-- A concrete parseable news fragment, used in counterexamples. -/
def goodFrag : NewsFragment :=
  { dataAktualnoscid := some "123", tytulNowosci := some "Tytul",
    small := some "Autor, Data: 01.02.2023 10:00", trescAktualnosci := some "Tresc",
    newsAttachments := none }

/-- The same fragment with the mandatory title element missing. -/
def badFrag : NewsFragment := { goodFrag with tytulNowosci := none }

/-- A concrete family of pairwise-distinct event dicts (used to exhibit a
hash collision by counting). -/
def collisionInput (n : Nat) : List (String × String) :=
  [("date", "2024-01-01"), ("group", "G"), ("title", String.mk (List.replicate n 'a'))]

/-- All five SHA-1 state words are 32-bit. -/
def BoundedState (s : Sha1State) : Prop :=
  s.a < 4294967296 ∧ s.b < 4294967296 ∧ s.c < 4294967296 ∧ s.d < 4294967296 ∧ s.e < 4294967296

/-! ## Helper lemmas -/

/-- When the first character of the pattern never occurs in the string, a
replace scan leaves the string unchanged, for any amount of fuel. -/
theorem replaceAux_eq_self (p : Char) (ps rep : List Char) :
    ∀ (fuel : Nat) (s : List Char), p ∉ s → replaceAux (p :: ps) rep fuel s = s := by
  intro fuel
  induction fuel with
  | zero => intro s _; rfl
  | succ n ih =>
    intro s hp
    cases s with
    | nil => rfl
    | cons c cs =>
      have hpc : (p == c) = false := by
        have : p ≠ c := fun h => hp (h ▸ List.mem_cons_self p cs)
        simp [this]
      have hpref : isPref (p :: ps) (c :: cs) = false := by
        simp [isPref, hpc]
      have hcs : p ∉ cs := fun h => hp (List.mem_cons_of_mem c h)
      simp [replaceAux, hpref, ih cs hcs]

/-- When the first character of a non-empty pattern never occurs in the
string, Python replace is the identity. -/
theorem pyReplace_eq_self (s : List Char) (p : Char) (ps rep : List Char) (hp : p ∉ s) :
    pyReplace s (p :: ps) rep = s := by
  simp [pyReplace, replaceAux_eq_self p ps rep s.length s hp]

/-- On a string free of carriage returns, newlines, and markup, `nl2br` is
the identity. -/
theorem nl2br_eq_self (s : List Char) (h1 : '\r' ∉ s) (h2 : '\n' ∉ s) (h3 : '<' ∉ s) :
    nl2br s = s := by
  have e1 : pyReplace s "\r\n".data "<br />".data = s := pyReplace_eq_self s _ _ _ h1
  have e2 : pyReplace s "\n".data "<br />".data = s := pyReplace_eq_self s _ _ _ h2
  have e3 : pyReplace s "<br />".data "<br />\n".data = s := pyReplace_eq_self s _ _ _ h3
  rw [nl2br, e1, e2, e3]

/-- Association-list lookup finds the stored value when the keys are
pairwise distinct. -/
theorem lookup_eq_some_of_mem_nodup {β : Type} (X : List (String × List β))
    (h : (X.map Prod.fst).Nodup) (k : String) (v : List β) (hm : (k, v) ∈ X) :
    X.lookup k = some v := by
  induction X with
  | nil => cases hm
  | cons hd tl ih =>
    obtain ⟨hhd, htl⟩ := List.nodup_cons.mp h
    rcases List.mem_cons.mp hm with heq | hmem
    · simp [← heq, List.lookup]
    · have hk : k ∈ tl.map Prod.fst := List.mem_map.mpr ⟨(k, v), hmem, rfl⟩
      have hne : (k == hd.1) = false := by
        simp only [beq_eq_false_iff_ne, ne_eq]
        intro hkk
        exact hhd (hkk ▸ hk)
      cases hd with
      | mk a b =>
        simp only [List.lookup, hne]
        exact ih htl hmem

/-- Association-list lookup misses exactly the absent keys. -/
theorem lookup_eq_none_of_not_mem {β : Type} (cnt : List (String × List β))
    (a : String) (ha : a ∉ cnt.map Prod.fst) : cnt.lookup a = none := by
  induction cnt with
  | nil => rfl
  | cons hd tl ih =>
    have h1 : a ≠ hd.1 := fun h => ha (h ▸ List.mem_map.mpr ⟨hd, List.mem_cons_self hd tl, rfl⟩)
    have h2 : a ∉ tl.map Prod.fst := fun h => ha (List.mem_cons_of_mem _ h)
    cases hd with
    | mk x y =>
      simp only [List.lookup, beq_eq_false_iff_ne.mpr h1]
      exact ih h2

theorem w32_lt (n : Nat) : w32 n < 4294967296 := Nat.mod_lt _ (by decide)

theorem addStates_bounded (x y : Sha1State) : BoundedState (addStates x y) := by
  unfold BoundedState addStates
  exact ⟨w32_lt _, w32_lt _, w32_lt _, w32_lt _, w32_lt _⟩

theorem sha1Chunk_bounded (hs : Sha1State) (chunk : List Nat) :
    BoundedState (sha1Chunk hs chunk) := by
  rw [sha1Chunk]
  exact addStates_bounded _ _

theorem foldl_sha1Chunk_bounded :
    ∀ (l : List (List Nat)) (hs : Sha1State), BoundedState hs →
      BoundedState (l.foldl sha1Chunk hs) := by
  intro l
  induction l with
  | nil => intro hs h; exact h
  | cons c cs ih =>
    intro hs _
    rw [List.foldl_cons]
    exact ih (sha1Chunk hs c) (sha1Chunk_bounded hs c)

theorem combine_step (x y K : Nat) (hx : x < K) (hy : y < 4294967296) :
    x * 4294967296 + y < K * 4294967296 := by
  have h1 : x * 4294967296 + y < (x + 1) * 4294967296 := by
    calc x * 4294967296 + y < x * 4294967296 + 4294967296 := Nat.add_lt_add_left hy _
      _ = (x + 1) * 4294967296 := by ring
  exact Nat.lt_of_lt_of_le h1 (Nat.mul_le_mul_right _ hx)

/-- The SHA-1 digest is a 160-bit number: the whole id space is finite. -/
theorem sha1Nat_lt (msg : List Nat) : sha1Nat msg < 2 ^ 160 := by
  obtain ⟨h1, h2, h3, h4, h5⟩ :=
    foldl_sha1Chunk_bounded (chunks64 (sha1Pad msg)) sha1Init
      (by unfold BoundedState; decide)
  have e2 := combine_step _ _ _ h1 h2
  have e3 := combine_step _ _ _ e2 h3
  have e4 := combine_step _ _ _ e3 h4
  have e5 := combine_step _ _ _ e4 h5
  have heq : (((4294967296 * 4294967296) * 4294967296) * 4294967296) * 4294967296 = 2 ^ 160 := by
    norm_num
  exact heq ▸ e5

theorem length_natToHexFixed : ∀ (k n : Nat), (natToHexFixed k n).length = k := by
  intro k
  induction k with
  | zero => intro n; rfl
  | succ m ih =>
    intro n
    simp [natToHexFixed, ih (n / 16)]

theorem hexDigitChar_mem (m : Nat) (hm : m < 16) : hexDigitChar m ∈ "0123456789abcdef".data := by
  interval_cases m <;> decide

theorem mem_natToHexFixed : ∀ (k n : Nat), ∀ c ∈ natToHexFixed k n,
    c ∈ "0123456789abcdef".data := by
  intro k
  induction k with
  | zero => intro n c hc; cases hc
  | succ m ih =>
    intro n c hc
    rcases List.mem_append.mp hc with h | h
    · exact ih (n / 16) c h
    · rcases List.mem_singleton.mp h with rfl
      exact hexDigitChar_mem _ (Nat.mod_lt _ (by decide))

theorem collisionInput_injective : Function.Injective collisionInput := by
  intro n m h
  simp only [collisionInput, List.cons.injEq, Prod.mk.injEq, and_true, true_and] at h
  have h2 : List.replicate n 'a' = List.replicate m 'a' := congrArg String.data h
  have h3 := congrArg List.length h2
  simpa using h3

/-- By counting: the id space is finite, the input space is not, so two
distinct dicts share an id. -/
theorem stable_id_collision :
    ∃ d1 d2 : List (String × String), d1 ≠ d2 ∧ stable_id d1 = stable_id d2 := by
  obtain ⟨n, m, hnm, heq⟩ := Finite.exists_ne_map_eq_of_infinite
    (fun n : Nat => (⟨sha1Nat (utf8Encode (jsonDumpsSorted (collisionInput n))),
      sha1Nat_lt _⟩ : Fin (2 ^ 160)))
  refine ⟨collisionInput n, collisionInput m, ?_, ?_⟩
  · intro h
    exact hnm (collisionInput_injective h)
  · have hv : sha1Nat (utf8Encode (jsonDumpsSorted (collisionInput n))) =
        sha1Nat (utf8Encode (jsonDumpsSorted (collisionInput m))) :=
      congrArg Fin.val heq
    unfold stable_id
    rw [hv]

/-- Two key-sorted association lists that are permutations of each other
with pairwise-distinct keys are equal. -/
theorem sorted_perm_nodup_eq :
    ∀ (l1 l2 : List (String × String)), l1.Perm l2 →
      l1.Pairwise (fun p q => p.1 ≤ q.1) → l2.Pairwise (fun p q => p.1 ≤ q.1) →
      (l1.map Prod.fst).Nodup → l1 = l2 := by
  intro l1
  induction l1 with
  | nil => intro l2 hp _ _ _; exact (hp.nil_eq).symm ▸ rfl
  | cons x xs ih =>
    intro l2 hp h1 h2 hnd
    cases l2 with
    | nil => exact absurd hp.symm (by simp)
    | cons y ys =>
      have hxy : x = y := by
        by_contra hne
        have hx2 : x ∈ y :: ys := hp.mem_iff.mp (List.mem_cons_self x xs)
        have hy1 : y ∈ x :: xs := hp.mem_iff.mpr (List.mem_cons_self y ys)
        have hxys : x ∈ ys := by
          rcases List.mem_cons.mp hx2 with h | h
          · exact absurd h hne
          · exact h
        have hyxs : y ∈ xs := by
          rcases List.mem_cons.mp hy1 with h | h
          · exact absurd h.symm hne
          · exact h
        have hle1 : x.1 ≤ y.1 := (List.pairwise_cons.mp h1).1 y hyxs
        have hle2 : y.1 ≤ x.1 := (List.pairwise_cons.mp h2).1 x hxys
        have hkeq : x.1 = y.1 := le_antisymm hle1 hle2
        have : x.1 ∈ xs.map Prod.fst := hkeq ▸ List.mem_map.mpr ⟨y, hyxs, rfl⟩
        exact (List.nodup_cons.mp hnd).1 this
      subst hxy
      have hperm : xs.Perm ys := (List.perm_cons x).mp hp
      exact congrArg (x :: ·) (ih ys hperm (List.pairwise_cons.mp h1).2
        (List.pairwise_cons.mp h2).2 (List.nodup_cons.mp hnd).2)

/-- For dicts with distinct keys, the key-sorted serialization order is a
function of the dict contents, not of the insertion order. -/
theorem sortByKey_perm_eq (d1 d2 : List (String × String)) (hp : d1.Perm d2)
    (hnd : (d1.map Prod.fst).Nodup) : sortByKey d1 = sortByKey d2 := by
  have htr : ∀ a b c : String × String,
      (decide (a.1 ≤ b.1)) = true → (decide (b.1 ≤ c.1)) = true →
      (decide (a.1 ≤ c.1)) = true := by
    intro a b c hab hbc
    simp only [decide_eq_true_eq] at hab hbc ⊢
    exact le_trans hab hbc
  have hto : ∀ a b : String × String,
      ((decide (a.1 ≤ b.1)) || (decide (b.1 ≤ a.1))) = true := by
    intro a b
    simp only [Bool.or_eq_true, decide_eq_true_eq]
    exact le_total a.1 b.1
  have hs1 := List.sorted_mergeSort htr hto d1
  have hs2 := List.sorted_mergeSort htr hto d2
  have hp1 : (sortByKey d1).Perm (sortByKey d2) :=
    ((List.mergeSort_perm d1 _).trans hp).trans (List.mergeSort_perm d2 _).symm
  have hnd1 : ((sortByKey d1).map Prod.fst).Nodup :=
    (((List.mergeSort_perm d1 _).map Prod.fst).nodup_iff).mpr hnd
  refine sorted_perm_nodup_eq _ _ hp1 ?_ ?_ hnd1
  · exact hs1.imp (fun h => by simpa using h)
  · exact hs2.imp (fun h => by simpa using h)

/-- Insertion order of a dict with distinct keys does not affect the id. -/
theorem stable_id_perm (d1 d2 : List (String × String)) (hp : d1.Perm d2)
    (hnd : (d1.map Prod.fst).Nodup) : stable_id d1 = stable_id d2 := by
  unfold stable_id jsonDumpsSorted
  rw [sortByKey_perm_eq d1 d2 hp hnd]

/-- An error on any fragment of a page aborts the whole page parse. -/
theorem parsePage_error_of_mem :
    ∀ (pre : List NewsFragment) (bad : NewsFragment) (post : List NewsFragment) (e : PyError),
      parse_news bad = Except.error e →
      ∃ e2 : PyError, parsePage (pre ++ bad :: post) = Except.error e2 := by
  intro pre
  induction pre with
  | nil =>
    intro bad post e he
    refine ⟨e, ?_⟩
    simp [parsePage, he, Bind.bind, Except.bind]
  | cons x xs ih =>
    intro bad post e he
    obtain ⟨e2, he2⟩ := ih bad post e he
    cases hx : parse_news x with
    | error ex => exact ⟨ex, by simp [parsePage, hx, Bind.bind, Except.bind]⟩
    | ok rx => exact ⟨e2, by simp [parsePage, hx, he2, Bind.bind, Except.bind]⟩

/-! ## Claim theorems -/


/-- C1, counterexample: applying `nl2br` twice to a newline duplicates the
line-break token, so the conversion is not idempotent as claimed. -/
theorem nl2br_not_idempotent_cex :
    nl2br (nl2br "\n".data) ≠ nl2br "\n".data := by decide

/-- C1 (amended): `nl2br` maps both line-break forms to the single token
`<br />` followed by a newline; it is not idempotent, since the emitted
token itself contains a newline that a second pass converts again.  It is
idempotent (indeed the identity) in particular on content free of carriage
returns, newlines and the markup character; this condition is sufficient
only, not a characterization of the fixed points. -/
theorem nl2br_line_break_mapping :
    nl2br "\r\n".data = "<br />\n".data ∧
    nl2br "\n".data = "<br />\n".data ∧
    nl2br (nl2br "\n".data) ≠ nl2br "\n".data ∧
    (∀ s : List Char, '\r' ∉ s → '\n' ∉ s → '<' ∉ s → nl2br (nl2br s) = nl2br s) := by
  refine ⟨by decide, by decide, by decide, ?_⟩
  intro s h1 h2 h3
  simp only [nl2br_eq_self s h1 h2 h3]

/-- C1, witness for the hypotheses of the idempotence part. -/
theorem nl2br_line_break_mapping_witness :
    nl2br (nl2br "abc".data) = nl2br "abc".data :=
  nl2br_line_break_mapping.2.2.2 "abc".data (by decide) (by decide) (by decide)

/-- C3: `new_items` keeps exactly the records of `current` whose id is
absent from the ids of `history`, in order (a sublist of `current`), with
multiplicity preserved, and an empty history keeps everything. -/
theorem new_items_diff_spec (current history : List Record) :
    (new_items current history).Sublist current ∧
    (∀ r : Record, r ∈ new_items current history ↔ r ∈ current ∧ r.id ∉ history.map Record.id) ∧
    (∀ r : Record, (new_items current history).count r =
      if r.id ∈ history.map Record.id then 0 else current.count r) ∧
    new_items current [] = current := by
  refine ⟨List.filter_sublist _, ?_, ?_, ?_⟩
  · intro r
    simp [new_items, List.mem_filter]
  · intro r
    by_cases h : r.id ∈ history.map Record.id
    · rw [if_pos h]
      rw [List.count_eq_zero, new_items]
      intro hmem
      have h2 := (List.mem_filter.mp hmem).2
      simp only [List.contains_eq_any_beq, Bool.not_eq_true', List.any_eq_false,
        beq_iff_eq] at h2
      exact h2 r.id h rfl
    · rw [if_neg h]
      exact List.count_filter (by simp [h])
  · simp [new_items]

/-- C3, witness. -/
theorem new_items_diff_spec_witness :
    new_items [] [] = [] :=
  (new_items_diff_spec [] []).2.2.2

/-- C4: diffing a collection against itself yields nothing new. -/
theorem new_items_self_is_empty (current : List Record) : new_items current current = [] := by
  rw [new_items, List.filter_eq_nil_iff]
  intro a ha
  simp [List.mem_map_of_mem Record.id ha]

/-- C2, counterexample: on an existing snapshot that lacks the requested
key, `load` returns Python `None` (embedded `none`), not an empty
sequence. -/
theorem load_absent_key_cex :
    load (some [("news", [({ id := "1", date := "", fields := [], attachments := [] } :
      Record)])]) ["unknown_key"] = [none] ∧
    (none : Option (List Record)) ≠ some [] :=
  ⟨by decide, by decide⟩

/-- C2 (amended): with no snapshot file every requested name loads as an
empty sequence, and with an existing file a name absent from it loads as
`None` (coerced to empty only later, by the caller's `or []`); neither
case raises. -/
theorem load_tolerant_defaults :
    (∀ (args : List String),
       load (none : Option (List (String × List Record))) args =
         args.map (fun _ => some [])) ∧
    (∀ (cnt : List (String × List Record)) (a : String), a ∉ cnt.map Prod.fst →
       load (some cnt) [a] = [none]) := by
  constructor
  · intro args; rfl
  · intro cnt a ha
    show [cnt.lookup a] = [none]
    rw [lookup_eq_none_of_not_mem cnt a ha]

/-- C2, witness. -/
theorem load_tolerant_defaults_witness :
    load (some [("news", ([] : List Record))]) ["unknown_key"] = [none] :=
  load_tolerant_defaults.2 [("news", [])] "unknown_key" (by decide)

/-- C6: storing a well-formed collection set (distinct keys, as Python
keyword arguments always are) and loading its keys returns exactly the
stored collections, in key order. -/
theorem store_load_roundtrip {β : Type} (X : List (String × List β))
    (h : (X.map Prod.fst).Nodup) :
    load (store X) (X.map Prod.fst) = X.map (fun kv => some kv.2) := by
  show (X.map Prod.fst).map (fun a => X.lookup a) = X.map (fun kv => some kv.2)
  rw [List.map_map]
  refine List.map_congr_left ?_
  intro kv hkv
  have hm : (kv.1, kv.2) ∈ X := by simpa using hkv
  exact lookup_eq_some_of_mem_nodup X h kv.1 kv.2 hm

/-- C6, witness. -/
theorem store_load_roundtrip_witness :
    load (store [("news", [(1 : Nat)]), ("events", [])])
      ([("news", [(1 : Nat)]), ("events", [])].map Prod.fst) =
      [("news", [(1 : Nat)]), ("events", [])].map (fun kv => some kv.2) :=
  @store_load_roundtrip Nat [("news", [1]), ("events", [])] (by decide)

/-- C10: `load` returns one entry per requested name, positionally aligned
with the argument order, in both the file-missing and file-present
branches. -/
theorem load_positional_shape {β : Type} (file : Option (List (String × List β)))
    (args : List String) :
    (load file args).length = args.length ∧
    ∀ i, i < args.length →
      (load file args).getD i none =
        (match file with
         | none => some []
         | some cnt => cnt.lookup (args.getD i "")) := by
  cases file with
  | none =>
    refine ⟨by simp [load], ?_⟩
    intro i hi
    simp [load, List.getD_eq_getElem?_getD, List.getElem?_map, List.getElem?_eq_getElem hi,
      List.getElem?_replicate, hi]
  | some cnt =>
    refine ⟨by simp [load], ?_⟩
    intro i hi
    simp [load, List.getD_eq_getElem?_getD, List.getElem?_map, List.getElem?_eq_getElem hi]

/-- C10, witness. -/
theorem load_positional_shape_witness :
    (load (some [("news", [(1 : Nat)])]) ["a", "news"]).getD 1 none = some [1] := by
  have h := (@load_positional_shape Nat (some [("news", [1])]) ["a", "news"]).2 1 (by decide)
  simpa using h

/-- C5, counterexample: the identity assignment is not injective, so some
change of a canonical field leaves the id unchanged: the id space is the
finite set of 40-hex-digit strings while the field space is unbounded. -/
theorem stable_id_injectivity_cex :
    ∃ d1 d2 : List (String × String), d1 ≠ d2 ∧ stable_id d1 = stable_id d2 :=
  stable_id_collision

/-- C5 (amended): `stable_id` is a deterministic pure function of the
canonical field mapping: it always yields a 40-character lowercase-hex
string, and the insertion order of a dict with distinct keys does not
affect it (the serialization sorts keys).  It is however not injective:
two distinct field mappings can share an id, so a changed canonical field
is not guaranteed to change the id. -/
theorem stable_id_deterministic_not_injective :
    (∀ d : List (String × String), (stable_id d).length = 40 ∧
       ∀ c ∈ (stable_id d).data, c ∈ "0123456789abcdef".data) ∧
    (∀ d1 d2 : List (String × String), d1.Perm d2 → (d1.map Prod.fst).Nodup →
       stable_id d1 = stable_id d2) ∧
    (∃ d1 d2 : List (String × String), d1 ≠ d2 ∧ stable_id d1 = stable_id d2) := by
  refine ⟨?_, stable_id_perm, stable_id_collision⟩
  intro d
  constructor
  · show (String.mk (natToHexFixed 40 (sha1Nat (utf8Encode (jsonDumpsSorted d))))).length = 40
    simp [String.length, length_natToHexFixed]
  · intro c hc
    exact mem_natToHexFixed 40 _ c hc

/-- C5, witness. -/
theorem stable_id_deterministic_not_injective_witness :
    (stable_id [("date", "d"), ("title", "t")]).length = 40 ∧
    stable_id [("date", "d"), ("title", "t")] = stable_id [("title", "t"), ("date", "d")] :=
  ⟨(stable_id_deterministic_not_injective.1 _).1,
   stable_id_deterministic_not_injective.2.1 _ _ (by decide) (by decide)⟩



/-- C7, counterexample: a page with a malformed first fragment and a
well-formed second one parses to an error, so the sibling record is not
extracted (no per-record isolation), and the error is the generic
`AttributeError`, not a record-identifying `MalformedRecordError` (no such
class exists in the program). -/
theorem parse_news_isolation_cex :
    (∃ r : Record, parse_news goodFrag = Except.ok r) ∧
    parsePage [badFrag, goodFrag] = Except.error (PyError.attributeError "get_text") :=
  ⟨⟨_, rfl⟩, rfl⟩

/-- C7 (amended): a missing mandatory selector makes `_parse_news` raise a
generic Python exception (`AttributeError` from `.get_text()` on `None`;
`KeyError` for the id attribute), and any failing fragment aborts the whole
page comprehension, so sibling records are not extracted. -/
theorem parse_news_failure_aborts_page :
    (∀ (n : NewsFragment) (i : String), n.dataAktualnoscid = some i → n.tytulNowosci = none →
       parse_news n = Except.error (PyError.attributeError "get_text")) ∧
    (∀ (pre : List NewsFragment) (bad : NewsFragment) (post : List NewsFragment) (e : PyError),
       parse_news bad = Except.error e →
       ∃ e2 : PyError, parsePage (pre ++ bad :: post) = Except.error e2) := by
  constructor
  · intro n i h1 h2
    simp [parse_news, h1, h2, Bind.bind, Except.bind]
  · exact parsePage_error_of_mem

/-- C7, witness. -/
theorem parse_news_failure_aborts_page_witness :
    parse_news badFrag = Except.error (PyError.attributeError "get_text") ∧
    ∃ e2 : PyError, parsePage ([goodFrag] ++ badFrag :: [goodFrag]) = Except.error e2 :=
  ⟨parse_news_failure_aborts_page.1 badFrag "123" rfl rfl,
   parse_news_failure_aborts_page.2 [goodFrag] badFrag [goodFrag]
     (PyError.attributeError "get_text")
     (parse_news_failure_aborts_page.1 badFrag "123" rfl rfl)⟩

/-- C8: `get_news` returns a permutation of the records collected from the
non-empty page prefix, sorted by the normalized date string in descending
order: every adjacent pair satisfies `b.date ≤ a.date`. -/
theorem get_news_sorted_desc (pages : List (List Record)) :
    (get_news pages).Perm (collectNews pages) ∧
    List.Chain' (fun a b => b.date ≤ a.date) (get_news pages) := by
  constructor
  · exact List.mergeSort_perm (collectNews pages) _
  · have htr : ∀ a b c : Record, (decide (b.date ≤ a.date)) = true →
        (decide (c.date ≤ b.date)) = true → (decide (c.date ≤ a.date)) = true := by
      intro a b c hab hbc
      simp only [decide_eq_true_eq] at hab hbc ⊢
      exact le_trans hbc hab
    have hto : ∀ a b : Record,
        ((decide (b.date ≤ a.date)) || (decide (a.date ≤ b.date))) = true := by
      intro a b
      simp only [Bool.or_eq_true, decide_eq_true_eq]
      exact le_total b.date a.date
    have hp := List.sorted_mergeSort htr hto (collectNews pages)
    exact (hp.imp (fun h => by simpa using h)).chain'

/-- C8, witness. -/
theorem get_news_sorted_desc_witness :
    (get_news [[]]).Perm (collectNews [[]]) :=
  (get_news_sorted_desc [[]]).1

/-- C9: the snapshot is rewritten exactly when the run found at least one
new record in some collection, and when nothing new was found the file is
left unchanged. -/
theorem store_invoked_iff_new (file : Option SnapshotFile) (news events : List Record)
    (convs : List (Nat × List Record)) :
    (anyNew (new_items news (lastSeenNews file)) (new_items events (lastSeenEvents file))
        (newConversations convs file) = true ↔
      (new_items news (lastSeenNews file) ≠ [] ∨
        new_items events (lastSeenEvents file) ≠ [] ∨
        ∃ p ∈ newConversations convs file, p.2 ≠ [])) ∧
    (anyNew (new_items news (lastSeenNews file)) (new_items events (lastSeenEvents file))
        (newConversations convs file) = false →
      runFinalFile file news events convs = file) := by
  constructor
  · simp only [anyNew, Bool.or_eq_true, Bool.not_eq_true', List.any_eq_true, ne_eq,
      List.isEmpty_eq_false]
    tauto
  · intro h
    simp [runFinalFile, h]

/-- C9, witness: a run that finds nothing new leaves a missing snapshot
file missing. -/
theorem store_invoked_iff_new_witness :
    runFinalFile none [] [] [] = none :=
  (store_invoked_iff_new none [] [] []).2 (by decide)


end KC
